import Mathlib

/-!
Shallow embedding of the `staty` statistics library (`staty.py`) and the
logistic-regression classifier (`regression.py`).

Conventions of the embedding:
* Python floats are modelled as real numbers (`ℝ`); the purely rational
  statistics (`mean`, `var`, `cov`, `pooled_var`, `median`, `mode`) are stated
  over an arbitrary linear ordered field so they can also be evaluated over `ℚ`.
* A Python function that can raise is modelled as a function into
  `Except StatyError _`.  The two `ValueError`s of the source are the
  taxonomy errors `insufficientData` ("The list must contain at least 2
  elements") and `mismatchedLength` ("The lists must be of the same length");
  a Python `ZeroDivisionError` (float division by zero) is `divisionByZero`,
  so every division of the source whose denominator can actually be zero is
  guarded exactly where Python would raise.
* `math.sqrt` is `Real.sqrt`; `scipy.stats.norm.ppf` and `scipy.stats.t.ppf`
  are external collaborators of the library and are passed as function
  parameters to the interval estimators (validation happens before they are
  ever consulted, so the error behaviour does not depend on them).
-/

namespace Staty

/-- The error taxonomy of the library. -/
inductive StatyError where
  | insufficientData
  | mismatchedLength
  | divisionByZero
deriving DecidableEq

instance {ε α : Type} [DecidableEq ε] [DecidableEq α] : DecidableEq (Except ε α) :=
  fun x y =>
    match x, y with
    | .ok a, .ok b => if h : a = b then isTrue (by rw [h]) else isFalse (by simp [h])
    | .error e, .error f => if h : e = f then isTrue (by rw [h]) else isFalse (by simp [h])
    | .ok _, .error _ => isFalse (by simp)
    | .error _, .ok _ => isFalse (by simp)

/-- Source `_validate_min_len`: raise when the length is below 2. -/
def _validate_min_len (n : Nat) : Except StatyError Unit :=
  if n < 2 then .error .insufficientData else .ok ()

/-- Source `_ensure_equal_len`: validate both lengths, then compare them. -/
def _ensure_equal_len (n1 n2 : Nat) : Except StatyError Unit := do
  _validate_min_len n1
  _validate_min_len n2
  if n1 ≠ n2 then .error .mismatchedLength else .ok ()

section Field

variable {K : Type} [LinearOrderedField K]

/-- Source `mean`: validate, then `sum(data) / n`. -/
def mean (data : List K) : Except StatyError K := do
  let n := data.length
  _validate_min_len n
  return data.sum / (n : K)

/-- Source `_squared_difference`: `sum(pow(value - mean_value, 2) for value in data)`. -/
def _squared_difference (data : List K) (mean_value : K) : K :=
  (data.map (fun value => (value - mean_value) ^ 2)).sum

/-- Source `var`: squared deviations from the mean over `n-1` (sample) or `n`. -/
def var (data : List K) (is_sample : Bool) : Except StatyError K := do
  let n := data.length
  _validate_min_len n
  let m ← mean data
  return _squared_difference data m / (if is_sample then (n : K) - 1 else (n : K))

/-- Source `pooled_var`: validates each length, never compares them, then
combines the two (sample) variances. -/
def pooled_var (data_x data_y : List K) : Except StatyError K := do
  let nx := data_x.length
  let ny := data_y.length
  _validate_min_len nx
  _validate_min_len ny
  let var_x ← var data_x true
  let var_y ← var data_y true
  return (((nx : K) - 1) * var_x + ((ny : K) - 1) * var_y) / ((nx : K) + (ny : K) - 2)

/-- Source `cov`: `_ensure_equal_len(len(data_y), n)` with `n = len(data_x)`,
then the mean product of paired deviations (indexed access over `range(n)`). -/
def cov (data_x data_y : List K) (is_sample : Bool) : Except StatyError K := do
  let n := data_x.length
  _ensure_equal_len data_y.length n
  let mx ← mean data_x
  let my ← mean data_y
  return ((List.range n).map
      (fun i => (data_x.getD i 0 - mx) * (data_y.getD i 0 - my))).sum
    / (if is_sample then (n : K) - 1 else (n : K))

/-- Source `median`, numeric instantiation (`isinstance(data[0], (float, int))`
holds): sort ascending, middle element when `n` is odd, average of the two
middle elements when `n` is even. -/
def median (data : List K) : Except StatyError K := do
  let n := data.length
  _validate_min_len n
  let s := data.insertionSort (· ≤ ·)
  if n % 2 == 0 then
    let middle_right := n / 2
    let middle_left := middle_right - 1
    return (s.getD middle_left 0 + s.getD middle_right 0) / 2
  else
    return s.getD (n / 2) 0

end Field

/-- The shape of a `median` result on non-numeric elements: a single middle
element for odd length, the unaveraged pair of middle elements for even length. -/
inductive MedianResult (α : Type) where
  | mid (a : α)
  | pair (a b : α)
deriving DecidableEq

/-- Source `median`, string instantiation (`isinstance(data[0], (float, int))`
fails): sort ascending, middle element when `n` is odd, the 2-tuple of the two
middle elements (unaveraged) when `n` is even. -/
def medianStr (data : List String) : Except StatyError (MedianResult String) := do
  let n := data.length
  _validate_min_len n
  let s := data.insertionSort (· ≤ ·)
  if n % 2 == 0 then
    let middle_right := n / 2
    let middle_left := middle_right - 1
    return .pair (s.getD middle_left "") (s.getD middle_right "")
  else
    return .mid (s.getD (n / 2) "")

section Mode

variable {α : Type} [DecidableEq α]

/-- One step of `collections.Counter(data)`: a Python dict keeps keys in first
insertion order, so a new value is appended at the back and an existing value
is incremented in place. -/
def counterAdd (acc : List (α × Nat)) (x : α) : List (α × Nat) :=
  if acc.any (fun p => decide (p.1 = x)) then
    acc.map (fun p => if p.1 = x then (p.1, p.2 + 1) else p)
  else
    acc ++ [(x, 1)]

/-- `collections.Counter(data)` as an insertion-ordered association list. -/
def counter (data : List α) : List (α × Nat) :=
  data.foldl counterAdd []

/-- The shape of a `mode` result: the single scalar mode, or the list of all
tied modes. -/
inductive ModeResult (α : Type) where
  | one (a : α)
  | many (l : List α)
deriving DecidableEq

/-- Source `mode`: the value(s) of highest frequency; a unique mode is
returned as a scalar, ties as the list of tied values in counter order. -/
def mode (data : List α) : Except StatyError (ModeResult α) := do
  _validate_min_len data.length
  let counts := counter data
  let max_count := (counts.map Prod.snd).foldl Nat.max 0
  let modes := (counts.filter (fun p => p.2 == max_count)).map Prod.fst
  match modes with
  | [m] => return .one m
  | _ => return .many modes

/-- First-occurrence deduplication: the key order of a Python dict / `Counter`. -/
def dedupFirst (data : List α) : List α :=
  data.foldl (fun acc x => if x ∈ acc then acc else acc ++ [x]) []

/-- The highest frequency of a value of `data`, for the specification-side
reading of `mode`. -/
def maxFreq (data : List α) : Nat :=
  ((dedupFirst data).map (fun v => data.count v)).foldl Nat.max 0

end Mode

section RealStats

/-- Source `stdev`: `sqrt(var(data, is_sample))`. -/
noncomputable def stdev (data : List ℝ) (is_sample : Bool) : Except StatyError ℝ := do
  _validate_min_len data.length
  let variance ← var data is_sample
  return Real.sqrt variance

/-- Source `stderr`: `stdev / sqrt(n)`. -/
noncomputable def stderr (data : List ℝ) (is_sample : Bool) : Except StatyError ℝ := do
  let n := data.length
  _validate_min_len n
  let std_dev ← stdev data is_sample
  return std_dev / Real.sqrt (n : ℝ)

/-- Source `cv`: `stdev / mean`; Python raises `ZeroDivisionError` when the
mean is zero, which the validation does not rule out. -/
noncomputable def cv (data : List ℝ) (is_sample : Bool) : Except StatyError ℝ := do
  _validate_min_len data.length
  let std_dev ← stdev data is_sample
  let m ← mean data
  if m = 0 then .error .divisionByZero else return std_dev / m

/-- Source `correlation_r`: `cov / (stdev_x * stdev_y)`; a zero denominator
(a constant sample) raises `ZeroDivisionError` in Python. -/
noncomputable def correlation_r (data_x data_y : List ℝ) (is_sample : Bool) :
    Except StatyError ℝ := do
  let n := data_x.length
  _ensure_equal_len data_y.length n
  let covariance ← cov data_x data_y is_sample
  let sx ← stdev data_x is_sample
  let sy ← stdev data_y is_sample
  if sx * sy = 0 then .error .divisionByZero else return covariance / (sx * sy)

/-- Source `zscore`: standardization by the population standard deviation
(`is_sample=False` is hard-wired); a constant sample divides by zero. -/
noncomputable def zscore (data : List ℝ) : Except StatyError (List ℝ) := do
  _validate_min_len data.length
  let m ← mean data
  let std_dev ← stdev data false
  if std_dev = 0 then .error .divisionByZero
  else return data.map (fun value => (value - m) / std_dev)

/-- Source `tscore`: standardization by the sample standard deviation
(the default `is_sample=True` is hard-wired); a constant sample divides by zero. -/
noncomputable def tscore (data : List ℝ) : Except StatyError (List ℝ) := do
  _validate_min_len data.length
  let m ← mean data
  let std_dev ← stdev data true
  if std_dev = 0 then .error .divisionByZero
  else return data.map (fun value => (value - m) / std_dev)

/-- Source `z_interval`; `ppf` stands for the external collaborator
`scipy.stats.norm.ppf`. -/
noncomputable def z_interval (ppf : ℝ → ℝ) (data : List ℝ) (confidence_lvl : ℝ) :
    Except StatyError (ℝ × ℝ) := do
  _validate_min_len data.length
  let alpha := 1 - confidence_lvl
  let z_value := ppf (1 - alpha / 2)
  let m ← mean data
  let std_err ← stderr data false
  let me := z_value * std_err
  return (m - me, m + me)

/-- Source `z_interval_equal_var`: validates each length only, never compares
them; `ppf` stands for `scipy.stats.norm.ppf`. -/
noncomputable def z_interval_equal_var (ppf : ℝ → ℝ) (data_x data_y : List ℝ)
    (confidence_lvl : ℝ) : Except StatyError (ℝ × ℝ) := do
  let nx := data_x.length
  let ny := data_y.length
  _validate_min_len nx
  _validate_min_len ny
  let alpha := 1 - confidence_lvl
  let z_value := ppf (1 - alpha / 2)
  let mx ← mean data_x
  let my ← mean data_y
  let m := mx - my
  let var_x ← var data_x false
  let var_y ← var data_y false
  let me := z_value * Real.sqrt (var_x / (nx : ℝ) + var_y / (ny : ℝ))
  return (m - me, m + me)

/-- Source `t_interval`; `tppf` stands for `scipy.stats.t.ppf`, taking the
quantile level and the degrees of freedom `n-1`. -/
noncomputable def t_interval (tppf : ℝ → Nat → ℝ) (data : List ℝ)
    (confidence_lvl : ℝ) : Except StatyError (ℝ × ℝ) := do
  let n := data.length
  _validate_min_len n
  let alpha := 1 - confidence_lvl
  let t_value := tppf (1 - alpha / 2) (n - 1)
  let m ← mean data
  let std_err ← stderr data true
  let me := t_value * std_err
  return (m - me, m + me)

/-- Source `t_interval_equal_var`: validates each length only, never compares
them; `tppf` stands for `scipy.stats.t.ppf` at `nx+ny-2` degrees of freedom. -/
noncomputable def t_interval_equal_var (tppf : ℝ → Nat → ℝ) (data_x data_y : List ℝ)
    (confidence_lvl : ℝ) : Except StatyError (ℝ × ℝ) := do
  let nx := data_x.length
  let ny := data_y.length
  _validate_min_len nx
  _validate_min_len ny
  let alpha := 1 - confidence_lvl
  let t_value := tppf (1 - alpha / 2) (nx + ny - 2)
  let mx ← mean data_x
  let my ← mean data_y
  let m := mx - my
  let p ← pooled_var data_x data_y
  let me := t_value * Real.sqrt (p / (nx : ℝ) + p / (ny : ℝ))
  return (m - me, m + me)

end RealStats

section Regression

/-- Source `_sigmoid` of `regression.py`: `1 / (1 + np.exp(-z))`. -/
noncomputable def _sigmoid (z : ℝ) : ℝ := 1 / (1 + Real.exp (-z))

/-- The dot product `np.dot(w.T, x)` of the weight vector with one example
column of the input matrix. -/
def dot (w x : List ℝ) : ℝ := (List.zipWith (· * ·) w x).sum

/-- Source `LogisticRegression.predict` with stored parameters `(w, b)`:
`np.where(sigmoid(w.T @ X + b) > 0.5, 1, 0)`, the matrix `X` given as its list
of example columns. -/
noncomputable def predict (w : List ℝ) (b : ℝ) (X : List (List ℝ)) : List Nat :=
  X.map (fun x => if _sigmoid (dot w x + b) > 0.5 then 1 else 0)

end Regression

/-! ### Basic lemmas about the embedding -/

theorem ok_bind {ε α β : Type} (a : α) (f : α → Except ε β) :
    (Except.ok a >>= f : Except ε β) = f a := rfl

theorem error_bind {ε α β : Type} (e : ε) (f : α → Except ε β) :
    (Except.error e >>= f : Except ε β) = Except.error e := rfl

theorem pure_eq_ok {ε α : Type} (a : α) : (pure a : Except ε α) = Except.ok a := rfl

theorem validate_lt {n : Nat} (h : n < 2) :
    _validate_min_len n = .error .insufficientData := by
  simp [_validate_min_len, h]

theorem validate_ge {n : Nat} (h : 2 ≤ n) : _validate_min_len n = .ok () := by
  simp [_validate_min_len, Nat.not_lt.mpr h]

theorem ensure_ok {n : Nat} (h : 2 ≤ n) : _ensure_equal_len n n = .ok () := by
  simp [_ensure_equal_len, validate_ge h, ok_bind]

theorem ensure_fst_short {n1 n2 : Nat} (h : n1 < 2) :
    _ensure_equal_len n1 n2 = .error .insufficientData := by
  simp [_ensure_equal_len, validate_lt h, error_bind]

theorem ensure_snd_short {n1 n2 : Nat} (h : n2 < 2) :
    _ensure_equal_len n1 n2 = .error .insufficientData := by
  by_cases h1 : n1 < 2
  · simp [_ensure_equal_len, validate_lt h1, error_bind]
  · simp [_ensure_equal_len, validate_ge (Nat.not_lt.mp h1), validate_lt h,
      ok_bind, error_bind]

theorem ensure_mismatch {n1 n2 : Nat} (h1 : 2 ≤ n1) (h2 : 2 ≤ n2) (hne : n1 ≠ n2) :
    _ensure_equal_len n1 n2 = .error .mismatchedLength := by
  simp [_ensure_equal_len, validate_ge h1, validate_ge h2, ok_bind, hne]

section FieldLemmas

variable {K : Type} [LinearOrderedField K]

/-- The pure value of `mean` on a valid input. -/
def meanValue (data : List K) : K := data.sum / (data.length : K)

/-- The pure value of `var` on a valid input. -/
def varValue (data : List K) (is_sample : Bool) : K :=
  _squared_difference data (meanValue data)
    / (if is_sample then (data.length : K) - 1 else (data.length : K))

theorem mean_eval {data : List K} (h : 2 ≤ data.length) :
    mean data = .ok (meanValue data) := by
  simp [mean, validate_ge h, ok_bind, pure_eq_ok, meanValue]

theorem var_eval {data : List K} (h : 2 ≤ data.length) (b : Bool) :
    var data b = .ok (varValue data b) := by
  simp [var, validate_ge h, mean_eval h, ok_bind, pure_eq_ok, varValue]

theorem sqdiff_nonneg (data : List K) (m : K) : 0 ≤ _squared_difference data m := by
  refine List.sum_nonneg ?_
  intro x hx
  simp only [List.mem_map] at hx
  obtain ⟨v, -, rfl⟩ := hx
  positivity

theorem varValue_nonneg {data : List K} (h : 2 ≤ data.length) (b : Bool) :
    0 ≤ varValue data b := by
  have hn : (1 : K) ≤ (data.length : K) := by
    exact_mod_cast Nat.one_le_of_lt h
  refine div_nonneg (sqdiff_nonneg data _) ?_
  cases b
  · simp
  · simp
    linarith

/-- Indexed access over `range n` sums the same products as a direct traversal. -/
theorem range_getD_sum (l : List K) (f : K → K) :
    ((List.range l.length).map (fun i => f (l.getD i 0))).sum = (l.map f).sum := by
  induction l with
  | nil => simp
  | cons a t ih =>
      rw [List.length_cons, List.range_succ_eq_map, List.map_cons, List.map_map,
        List.sum_cons, List.map_cons, List.sum_cons]
      have hfun : ((fun i => f ((a :: t).getD i 0)) ∘ Nat.succ)
          = (fun i => f (t.getD i 0)) := funext fun i => rfl
      rw [hfun, ih]
      rfl

/-- On a pair of identical samples, `cov` computes exactly `var`. -/
theorem cov_self (x : List K) (b : Bool) : cov x x b = var x b := by
  by_cases h : 2 ≤ x.length
  · rw [var_eval h b]
    have key := range_getD_sum x (fun v => (v - meanValue x) * (v - meanValue x))
    simp only [List.getD_eq_getElem?_getD] at key
    simp [cov, ensure_ok h, ok_bind, mean_eval h, pure_eq_ok, varValue,
      _squared_difference, pow_two, key]
  · have hlt : x.length < 2 := Nat.not_le.mp h
    simp [cov, ensure_fst_short hlt, var, validate_lt hlt, error_bind]

end FieldLemmas

theorem stdev_eval {data : List ℝ} (h : 2 ≤ data.length) (b : Bool) :
    stdev data b = .ok (Real.sqrt (varValue data b)) := by
  simp [stdev, validate_ge h, var_eval h, ok_bind, pure_eq_ok]

/-! ### The claims -/

/-- Claim C2: for a numeric sample of length `n ≥ 2`, `var(data, is_sample)` is
the sum of squared deviations from `mean(data)` divided by `n-1` when
`is_sample` is true and by `n` otherwise; concretely, `var([2,4,6,8])` in
sample mode is `20/3`, the exact value whose double-precision rendering is
`6.666666666666667`. -/
theorem claim_C2 (data : List ℝ) (b : Bool) (h : 2 ≤ data.length) :
    var data b = .ok ((data.map
        (fun x => (x - data.sum / (data.length : ℝ)) ^ 2)).sum
      / (if b then (data.length : ℝ) - 1 else (data.length : ℝ)))
    ∧ var ([2, 4, 6, 8] : List ℝ) true = .ok (20 / 3) := by
  constructor
  · simp [var_eval h, varValue, _squared_difference, meanValue]
  · rw [var_eval (by norm_num) true]
    simp [varValue, _squared_difference, meanValue]
    norm_num

theorem claim_C2_wit :
    var ([2, 4, 6, 8] : List ℝ) true = .ok ((([2, 4, 6, 8] : List ℝ).map
        (fun x => (x - ([2, 4, 6, 8] : List ℝ).sum
          / (([2, 4, 6, 8] : List ℝ).length : ℝ)) ^ 2)).sum
      / (if true then (([2, 4, 6, 8] : List ℝ).length : ℝ) - 1
         else (([2, 4, 6, 8] : List ℝ).length : ℝ)))
    ∧ var ([2, 4, 6, 8] : List ℝ) true = .ok (20 / 3) :=
  claim_C2 [2, 4, 6, 8] true (by norm_num)

/-- Claim C7: the sample variance equals the population variance scaled by
`n/(n-1)`, for every numeric sample of length `n ≥ 2`. -/
theorem claim_C7 (data : List ℝ) (vs vp : ℝ) (h : 2 ≤ data.length)
    (hs : var data true = .ok vs) (hp : var data false = .ok vp) :
    vs = vp * ((data.length : ℝ) / ((data.length : ℝ) - 1)) := by
  rw [var_eval h true] at hs
  rw [var_eval h false] at hp
  have hvs : vs = varValue data true := by
    simpa using hs.symm
  have hvp : vp = varValue data false := by
    simpa using hp.symm
  have hn : (2 : ℝ) ≤ (data.length : ℝ) := by exact_mod_cast h
  have h0 : (data.length : ℝ) ≠ 0 := by linarith
  have h1 : (data.length : ℝ) - 1 ≠ 0 := by intro hc; rw [sub_eq_zero] at hc; linarith [hc]
  subst hvs hvp
  simp only [varValue, if_true, if_false]
  field_simp

theorem claim_C7_wit :
    varValue ([2, 4, 6, 8] : List ℝ) true
      = varValue ([2, 4, 6, 8] : List ℝ) false
        * ((([2, 4, 6, 8] : List ℝ).length : ℝ)
            / ((([2, 4, 6, 8] : List ℝ).length : ℝ) - 1)) :=
  claim_C7 [2, 4, 6, 8] _ _ (by norm_num)
    (var_eval (by norm_num) true) (var_eval (by norm_num) false)

end Staty

namespace Staty

/-- Claim C1: every statistic operation raises `InsufficientDataError` when a
required sample has fewer than 2 elements (the validation runs before any
computation, so the result is the error and nothing else), and the paired
operations `cov` and `correlation_r` raise `MismatchedLengthError` when both
samples pass the individual minimum-length checks but their lengths differ. -/
theorem claim_C1 (d y : List ℝ) (sd : List String) (b : Bool)
    (q : ℝ → ℝ) (tq : ℝ → Nat → ℝ) (c : ℝ)
    (hd : d.length < 2) (hsd : sd.length < 2)
    (x₁ x₂ : List ℝ) (h1 : 2 ≤ x₁.length) (h2 : 2 ≤ x₂.length)
    (hne : x₁.length ≠ x₂.length) :
    mean d = .error .insufficientData
    ∧ var d b = .error .insufficientData
    ∧ stdev d b = .error .insufficientData
    ∧ stderr d b = .error .insufficientData
    ∧ median d = .error .insufficientData
    ∧ medianStr sd = .error .insufficientData
    ∧ mode d = .error .insufficientData
    ∧ cv d b = .error .insufficientData
    ∧ zscore d = .error .insufficientData
    ∧ tscore d = .error .insufficientData
    ∧ cov d y b = .error .insufficientData
    ∧ cov y d b = .error .insufficientData
    ∧ correlation_r d y b = .error .insufficientData
    ∧ correlation_r y d b = .error .insufficientData
    ∧ pooled_var d y = .error .insufficientData
    ∧ pooled_var y d = .error .insufficientData
    ∧ z_interval q d c = .error .insufficientData
    ∧ z_interval_equal_var q d y c = .error .insufficientData
    ∧ z_interval_equal_var q y d c = .error .insufficientData
    ∧ t_interval tq d c = .error .insufficientData
    ∧ t_interval_equal_var tq d y c = .error .insufficientData
    ∧ t_interval_equal_var tq y d c = .error .insufficientData
    ∧ cov x₁ x₂ b = .error .mismatchedLength
    ∧ correlation_r x₁ x₂ b = .error .mismatchedLength := by
  have hmm : x₂.length ≠ x₁.length := fun hc => hne hc.symm
  refine ⟨?_, ?_, ?_, ?_, ?_, ?_, ?_, ?_, ?_, ?_, ?_, ?_, ?_, ?_, ?_, ?_, ?_, ?_,
    ?_, ?_, ?_, ?_, ?_, ?_⟩
  · simp [mean, validate_lt hd, error_bind]
  · simp [var, validate_lt hd, error_bind]
  · simp [stdev, validate_lt hd, error_bind]
  · simp [stderr, validate_lt hd, error_bind]
  · simp [median, validate_lt hd, error_bind]
  · simp [medianStr, validate_lt hsd, error_bind]
  · simp [mode, validate_lt hd, error_bind]
  · simp [cv, validate_lt hd, error_bind]
  · simp [zscore, validate_lt hd, error_bind]
  · simp [tscore, validate_lt hd, error_bind]
  · simp [cov, ensure_snd_short hd, error_bind]
  · simp [cov, ensure_fst_short hd, error_bind]
  · simp [correlation_r, ensure_snd_short hd, error_bind]
  · simp [correlation_r, ensure_fst_short hd, error_bind]
  · simp [pooled_var, validate_lt hd, error_bind]
  · by_cases hy : y.length < 2
    · simp [pooled_var, validate_lt hy, error_bind]
    · simp [pooled_var, validate_ge (Nat.not_lt.mp hy), validate_lt hd, ok_bind,
        error_bind]
  · simp [z_interval, validate_lt hd, error_bind]
  · simp [z_interval_equal_var, validate_lt hd, error_bind]
  · by_cases hy : y.length < 2
    · simp [z_interval_equal_var, validate_lt hy, error_bind]
    · simp [z_interval_equal_var, validate_ge (Nat.not_lt.mp hy), validate_lt hd,
        ok_bind, error_bind]
  · simp [t_interval, validate_lt hd, error_bind]
  · simp [t_interval_equal_var, validate_lt hd, error_bind]
  · by_cases hy : y.length < 2
    · simp [t_interval_equal_var, validate_lt hy, error_bind]
    · simp [t_interval_equal_var, validate_ge (Nat.not_lt.mp hy), validate_lt hd,
        ok_bind, error_bind]
  · simp [cov, ensure_mismatch h2 h1 hmm, error_bind]
  · simp [correlation_r, ensure_mismatch h2 h1 hmm, error_bind]

theorem claim_C1_wit :
    mean ([1] : List ℝ) = .error .insufficientData
    ∧ var ([1] : List ℝ) true = .error .insufficientData
    ∧ stdev ([1] : List ℝ) true = .error .insufficientData
    ∧ stderr ([1] : List ℝ) true = .error .insufficientData
    ∧ median ([1] : List ℝ) = .error .insufficientData
    ∧ medianStr ["a"] = .error .insufficientData
    ∧ mode ([1] : List ℝ) = .error .insufficientData
    ∧ cv ([1] : List ℝ) true = .error .insufficientData
    ∧ zscore ([1] : List ℝ) = .error .insufficientData
    ∧ tscore ([1] : List ℝ) = .error .insufficientData
    ∧ cov ([1] : List ℝ) [] true = .error .insufficientData
    ∧ cov ([] : List ℝ) [1] true = .error .insufficientData
    ∧ correlation_r ([1] : List ℝ) [] true = .error .insufficientData
    ∧ correlation_r ([] : List ℝ) [1] true = .error .insufficientData
    ∧ pooled_var ([1] : List ℝ) [] = .error .insufficientData
    ∧ pooled_var ([] : List ℝ) [1] = .error .insufficientData
    ∧ z_interval (fun _ => 0) ([1] : List ℝ) 0.95 = .error .insufficientData
    ∧ z_interval_equal_var (fun _ => 0) ([1] : List ℝ) [] 0.95
        = .error .insufficientData
    ∧ z_interval_equal_var (fun _ => 0) ([] : List ℝ) [1] 0.95
        = .error .insufficientData
    ∧ t_interval (fun _ _ => 0) ([1] : List ℝ) 0.95 = .error .insufficientData
    ∧ t_interval_equal_var (fun _ _ => 0) ([1] : List ℝ) [] 0.95
        = .error .insufficientData
    ∧ t_interval_equal_var (fun _ _ => 0) ([] : List ℝ) [1] 0.95
        = .error .insufficientData
    ∧ cov ([1, 2] : List ℝ) [1, 2, 3] true = .error .mismatchedLength
    ∧ correlation_r ([1, 2] : List ℝ) [1, 2, 3] true = .error .mismatchedLength :=
  claim_C1 [1] [] ["a"] true (fun _ => 0) (fun _ _ => 0) 0.95 (by decide) (by decide)
    [1, 2] [1, 2, 3] (by decide) (by decide) (by decide)

end Staty

namespace Staty

/-- Claim C3: `median` sorts ascending and returns the middle element for odd
length; for even length it averages the two middle elements on numeric data
and returns the unaveraged 2-tuple of the two middle elements on string data;
concretely `median([2,4,6,8,10]) = 6` and `median(["a","b","c","d"]) = ("b","c")`. -/
theorem claim_C3 {K : Type} [LinearOrderedField K] (data : List K)
    (h : 2 ≤ data.length) (sdata : List String) (hs : 2 ≤ sdata.length) :
    (∃ s : List K, List.Perm data s ∧ s.Sorted (· ≤ ·) ∧
      median data = .ok (if data.length % 2 = 0
        then (s.getD (data.length / 2 - 1) 0 + s.getD (data.length / 2) 0) / 2
        else s.getD (data.length / 2) 0))
    ∧ (∃ t : List String, List.Perm sdata t ∧ t.Sorted (· ≤ ·) ∧
      medianStr sdata = .ok (if sdata.length % 2 = 0
        then .pair (t.getD (sdata.length / 2 - 1) "") (t.getD (sdata.length / 2) "")
        else .mid (t.getD (sdata.length / 2) "")))
    ∧ median ([2, 4, 6, 8, 10] : List ℚ) = .ok 6
    ∧ medianStr ["a", "b", "c", "d"] = .ok (.pair "b" "c") := by
  refine ⟨⟨data.insertionSort (· ≤ ·), (List.perm_insertionSort _ data).symm,
      List.sorted_insertionSort _ data, ?_⟩,
    ⟨sdata.insertionSort (· ≤ ·), (List.perm_insertionSort _ sdata).symm,
      List.sorted_insertionSort _ sdata, ?_⟩, ?_, ?_⟩
  · simp only [median, validate_ge h, ok_bind, pure_eq_ok]
    by_cases he : data.length % 2 = 0 <;> simp [he]
  · simp only [medianStr, validate_ge hs, ok_bind, pure_eq_ok]
    by_cases he : sdata.length % 2 = 0 <;> simp [he]
  · rfl
  · simp [medianStr, _validate_min_len, ok_bind, pure_eq_ok]
    decide

theorem claim_C3_wit :
    (∃ s : List ℚ, List.Perm [3, 1] s ∧ s.Sorted (· ≤ ·) ∧
      median ([3, 1] : List ℚ) = .ok (if ([3, 1] : List ℚ).length % 2 = 0
        then (s.getD (([3, 1] : List ℚ).length / 2 - 1) 0
          + s.getD (([3, 1] : List ℚ).length / 2) 0) / 2
        else s.getD (([3, 1] : List ℚ).length / 2) 0))
    ∧ (∃ t : List String, List.Perm ["b", "a", "c"] t ∧ t.Sorted (· ≤ ·) ∧
      medianStr ["b", "a", "c"] = .ok (if (["b", "a", "c"] : List String).length % 2 = 0
        then .pair (t.getD ((["b", "a", "c"] : List String).length / 2 - 1) "")
          (t.getD ((["b", "a", "c"] : List String).length / 2) "")
        else .mid (t.getD ((["b", "a", "c"] : List String).length / 2) "")))
    ∧ median ([2, 4, 6, 8, 10] : List ℚ) = .ok 6
    ∧ medianStr ["a", "b", "c", "d"] = .ok (.pair "b" "c") :=
  claim_C3 [3, 1] (by decide) ["b", "a", "c"] (by decide)

end Staty

namespace Staty

section ModeLemmas

variable {α : Type} [DecidableEq α]

theorem dedupFirst_append (l : List α) (x : α) :
    dedupFirst (l ++ [x])
      = if x ∈ dedupFirst l then dedupFirst l else dedupFirst l ++ [x] := by
  simp [dedupFirst, List.foldl_append]

theorem mem_dedupFirst (l : List α) : ∀ a, a ∈ dedupFirst l ↔ a ∈ l := by
  induction l using List.reverseRecOn with
  | nil => simp [dedupFirst]
  | append_singleton l x ih =>
      intro a
      rw [dedupFirst_append]
      by_cases hx : x ∈ dedupFirst l
      · have hx' : x ∈ l := (ih x).mp hx
        simp only [hx, if_true, List.mem_append, List.mem_singleton, ih]
        constructor
        · exact Or.inl
        · rintro (ha | rfl)
          · exact ha
          · exact hx'
      · simp [hx, ih, List.mem_append]

theorem counter_eq (l : List α) :
    counter l = (dedupFirst l).map (fun v => (v, l.count v)) := by
  induction l using List.reverseRecOn with
  | nil => rfl
  | append_singleton l x ih =>
      have hc : counter (l ++ [x]) = counterAdd (counter l) x := by
        simp [counter, List.foldl_append]
      rw [hc, ih, dedupFirst_append]
      by_cases hx : x ∈ dedupFirst l
      · have hany : ((dedupFirst l).map (fun v => (v, l.count v))).any
            (fun p => decide (p.1 = x)) = true :=
          List.any_eq_true.mpr ⟨(x, l.count x), List.mem_map.mpr ⟨x, hx, rfl⟩, by simp⟩
        rw [if_pos hx]
        simp only [counterAdd, hany, if_true, List.map_map]
        refine List.map_congr_left ?_
        intro v hv
        by_cases hvx : v = x
        · subst hvx
          simp [Function.comp, List.count_append]
        · simp [Function.comp, hvx, List.count_append, List.count_singleton]
      · have hany : ((dedupFirst l).map (fun v => (v, l.count v))).any
            (fun p => decide (p.1 = x)) = false := by
          refine List.any_eq_false.mpr ?_
          rintro ⟨v, c⟩ hm
          obtain ⟨w, hw, hwe⟩ := List.mem_map.mp hm
          cases hwe
          simp only [decide_eq_true_eq]
          exact fun he => hx (he ▸ hw)
        have hxl : x ∉ l := fun hc2 => hx ((mem_dedupFirst l x).mpr hc2)
        rw [if_neg hx]
        simp only [counterAdd, hany, Bool.false_eq_true, if_false, List.map_append]
        congr 1
        · refine List.map_congr_left ?_
          intro v hv
          have hvx : v ≠ x := fun he => hxl (he ▸ (mem_dedupFirst l v).mp hv)
          simp [hvx, List.count_append, List.count_singleton]
        · simp [List.count_append, List.count_eq_zero.mpr hxl]

theorem le_foldl_max (l : List Nat) (b : Nat) : b ≤ l.foldl Nat.max b := by
  induction l generalizing b with
  | nil => simp
  | cons a t ih => exact le_trans (Nat.le_max_left b a) (ih (Nat.max b a))

theorem mem_le_foldl_max (l : List Nat) : ∀ b, ∀ x ∈ l, x ≤ l.foldl Nat.max b := by
  induction l with
  | nil =>
      intro b x hx
      cases hx
  | cons a t ih =>
      intro b x hx
      rcases List.mem_cons.mp hx with rfl | hm
      · exact le_trans (Nat.le_max_right b x) (le_foldl_max t _)
      · exact ih _ x hm

theorem count_le_maxFreq (data : List α) {u : α} (hu : u ∈ data) :
    data.count u ≤ maxFreq data := by
  have hm : data.count u ∈ (dedupFirst data).map (fun v => data.count v) :=
    List.mem_map.mpr ⟨u, (mem_dedupFirst data u).mpr hu, rfl⟩
  exact mem_le_foldl_max _ 0 _ hm

theorem mode_eval {data : List α} (h : 2 ≤ data.length) :
    mode data = .ok
      (match (dedupFirst data).filter
          (fun v => decide (data.count v = maxFreq data)) with
       | [v] => ModeResult.one v
       | ms => ModeResult.many ms) := by
  simp only [mode, validate_ge h, ok_bind, counter_eq, List.map_map, maxFreq]
  rw [List.filter_map]
  simp only [List.map_map]
  have hsnd : (Prod.snd ∘ fun v : α => (v, data.count v)) = fun v => data.count v := rfl
  simp only [hsnd]
  have hpred : ∀ v ∈ dedupFirst data,
      ((fun p : α × Nat => p.2
          == ((dedupFirst data).map (fun v => data.count v)).foldl Nat.max 0)
        ∘ (fun v => (v, data.count v))) v
      = (fun v => decide (data.count v
          = ((dedupFirst data).map (fun v => data.count v)).foldl Nat.max 0)) v := by
    intro v hv
    by_cases hc : data.count v
        = ((dedupFirst data).map (fun v => data.count v)).foldl Nat.max 0
    · simp [hc]
    · simp [hc]
  rw [List.filter_congr hpred]
  have hid : (Prod.fst ∘ fun v : α => (v, data.count v)) = id := rfl
  simp only [hid, List.map_id]
  rcases hf : List.filter
      (fun v => decide (List.count v data
        = List.foldl Nat.max 0 (List.map (fun v => List.count v data) (dedupFirst data))))
      (dedupFirst data) with _ | ⟨v, _ | ⟨w, t⟩⟩ <;>
    simp [hf, pure_eq_ok]

end ModeLemmas

/-- Claim C4: `mode` returns the highest-frequency value as a single scalar
when it is unique, and all tied values as a list in first-encounter order when
several values share the highest frequency; concretely `mode([2,2,3,4,5,6]) = 2`
and `mode([2,3,4,5,6]) = [2,3,4,5,6]`. -/
theorem claim_C4 {α : Type} [DecidableEq α] (data : List α) (h : 2 ≤ data.length) :
    (∀ u ∈ data, data.count u ≤ maxFreq data)
    ∧ (∀ v ∈ (dedupFirst data).filter
        (fun v => decide (data.count v = maxFreq data)), data.count v = maxFreq data)
    ∧ mode data = .ok
        (match (dedupFirst data).filter
            (fun v => decide (data.count v = maxFreq data)) with
         | [v] => ModeResult.one v
         | ms => ModeResult.many ms)
    ∧ mode ([2, 2, 3, 4, 5, 6] : List ℚ) = .ok (.one 2)
    ∧ mode ([2, 3, 4, 5, 6] : List ℚ) = .ok (.many [2, 3, 4, 5, 6]) := by
  refine ⟨fun u hu => count_le_maxFreq data hu, ?_, mode_eval h, by rfl, by rfl⟩
  intro v hv
  exact of_decide_eq_true (List.mem_filter.mp hv).2

theorem claim_C4_wit :
    (∀ u ∈ ([2, 2, 3] : List ℚ), ([2, 2, 3] : List ℚ).count u
      ≤ maxFreq ([2, 2, 3] : List ℚ))
    ∧ (∀ v ∈ (dedupFirst ([2, 2, 3] : List ℚ)).filter
        (fun v => decide (([2, 2, 3] : List ℚ).count v = maxFreq ([2, 2, 3] : List ℚ))),
        ([2, 2, 3] : List ℚ).count v = maxFreq ([2, 2, 3] : List ℚ))
    ∧ mode ([2, 2, 3] : List ℚ) = .ok
        (match (dedupFirst ([2, 2, 3] : List ℚ)).filter
            (fun v => decide (([2, 2, 3] : List ℚ).count v
              = maxFreq ([2, 2, 3] : List ℚ))) with
         | [v] => ModeResult.one v
         | ms => ModeResult.many ms)
    ∧ mode ([2, 2, 3, 4, 5, 6] : List ℚ) = .ok (.one 2)
    ∧ mode ([2, 3, 4, 5, 6] : List ℚ) = .ok (.many [2, 3, 4, 5, 6]) :=
  claim_C4 [2, 2, 3] (by decide)

end Staty

namespace Staty

/-- Claim C5 (amended): for a numeric sample of length ≥ 2 whose relevant
standard deviation is nonzero, `zscore` standardizes every element by the
population standard deviation (no Bessel correction) and `tscore` by the
sample standard deviation (Bessel correction), both preserving input order;
neither function takes a sample/population flag.  The amendment adds the
nonzero-standard-deviation hypothesis: on a constant sample the code divides
by zero instead of returning the claimed list (see the counterexample). -/
theorem claim_C5 (data : List ℝ) (m s t : ℝ) (h : 2 ≤ data.length)
    (hm : mean data = .ok m) (hs : stdev data false = .ok s)
    (ht : stdev data true = .ok t) (hs0 : s ≠ 0) (ht0 : t ≠ 0) :
    s = Real.sqrt ((data.map (fun x => (x - m) ^ 2)).sum / (data.length : ℝ))
    ∧ t = Real.sqrt ((data.map (fun x => (x - m) ^ 2)).sum / ((data.length : ℝ) - 1))
    ∧ zscore data = .ok (data.map (fun value => (value - m) / s))
    ∧ tscore data = .ok (data.map (fun value => (value - m) / t)) := by
  rw [mean_eval h] at hm
  rw [stdev_eval h false] at hs
  rw [stdev_eval h true] at ht
  have hm' : m = meanValue data := (Except.ok.inj hm).symm
  have hs' : s = Real.sqrt (varValue data false) := (Except.ok.inj hs).symm
  have ht' : t = Real.sqrt (varValue data true) := (Except.ok.inj ht).symm
  subst hm' hs' ht'
  refine ⟨by simp [varValue, _squared_difference, meanValue],
    by simp [varValue, _squared_difference, meanValue], ?_, ?_⟩
  · simp only [zscore, validate_ge h, ok_bind, mean_eval h, stdev_eval h, pure_eq_ok]
    rw [if_neg hs0]
  · simp only [tscore, validate_ge h, ok_bind, mean_eval h, stdev_eval h, pure_eq_ok]
    rw [if_neg ht0]

theorem claim_C5_wit :
    Real.sqrt (varValue ([1, 2] : List ℝ) false)
      = Real.sqrt ((([1, 2] : List ℝ).map
          (fun x => (x - meanValue ([1, 2] : List ℝ)) ^ 2)).sum
        / ((([1, 2] : List ℝ).length : ℝ)))
    ∧ Real.sqrt (varValue ([1, 2] : List ℝ) true)
      = Real.sqrt ((([1, 2] : List ℝ).map
          (fun x => (x - meanValue ([1, 2] : List ℝ)) ^ 2)).sum
        / ((([1, 2] : List ℝ).length : ℝ) - 1))
    ∧ zscore ([1, 2] : List ℝ) = .ok (([1, 2] : List ℝ).map
        (fun value => (value - meanValue ([1, 2] : List ℝ))
          / Real.sqrt (varValue ([1, 2] : List ℝ) false)))
    ∧ tscore ([1, 2] : List ℝ) = .ok (([1, 2] : List ℝ).map
        (fun value => (value - meanValue ([1, 2] : List ℝ))
          / Real.sqrt (varValue ([1, 2] : List ℝ) true))) :=
  claim_C5 [1, 2] _ _ _ (by norm_num) (mean_eval (by norm_num))
    (stdev_eval (by norm_num) false) (stdev_eval (by norm_num) true)
    (Real.sqrt_ne_zero'.mpr (by norm_num [varValue, _squared_difference, meanValue]))
    (Real.sqrt_ne_zero'.mpr (by norm_num [varValue, _squared_difference, meanValue]))

/-- The constant sample `[3,3]` has length 2 yet `zscore`/`tscore` raise a
division-by-zero error rather than returning the standardized list, refuting
claim C5 as universally stated. -/
theorem claim_C5_cex :
    zscore ([3, 3] : List ℝ) = .error .divisionByZero
    ∧ tscore ([3, 3] : List ℝ) = .error .divisionByZero := by
  have h2 : 2 ≤ ([3, 3] : List ℝ).length := by norm_num
  have hv0 : varValue ([3, 3] : List ℝ) false = 0 := by
    norm_num [varValue, _squared_difference, meanValue]
  have hv1 : varValue ([3, 3] : List ℝ) true = 0 := by
    norm_num [varValue, _squared_difference, meanValue]
  constructor
  · simp only [zscore, validate_ge h2, ok_bind, mean_eval h2, stdev_eval h2,
      pure_eq_ok, hv0, Real.sqrt_zero]
    rw [if_pos trivial]
  · simp only [tscore, validate_ge h2, ok_bind, mean_eval h2, stdev_eval h2,
      pure_eq_ok, hv1, Real.sqrt_zero]
    rw [if_pos trivial]

/-- Claim C6 (amended): `correlation_r(x, x) = 1.0` for every valid sample `x`
whose sample standard deviation is nonzero.  The amendment excludes constant
samples, on which the code raises a division-by-zero error instead (see the
counterexample). -/
theorem claim_C6 (x : List ℝ) (s : ℝ) (h : 2 ≤ x.length)
    (hs : stdev x true = .ok s) (hs0 : s ≠ 0) :
    correlation_r x x true = .ok 1 := by
  rw [stdev_eval h true] at hs
  have hs' : s = Real.sqrt (varValue x true) := (Except.ok.inj hs).symm
  subst hs'
  have hnn : 0 ≤ varValue x true := varValue_nonneg h true
  have hv0 : varValue x true ≠ 0 := fun hc => hs0 (by rw [hc, Real.sqrt_zero])
  simp only [correlation_r, ensure_ok h, ok_bind, cov_self, var_eval h,
    stdev_eval h, pure_eq_ok, Real.mul_self_sqrt hnn]
  rw [if_neg hv0, div_self hv0]

theorem claim_C6_wit : correlation_r ([1, 2] : List ℝ) [1, 2] true = .ok 1 :=
  claim_C6 [1, 2] _ (by norm_num) (stdev_eval (by norm_num) true)
    (Real.sqrt_ne_zero'.mpr (by norm_num [varValue, _squared_difference, meanValue]))

/-- The constant sample `[3,3]` is a valid sample (length ≥ 2) on which
`correlation_r(x, x)` raises a division-by-zero error instead of returning
`1.0`, refuting claim C6 as universally stated. -/
theorem claim_C6_cex :
    correlation_r ([3, 3] : List ℝ) [3, 3] true = .error .divisionByZero := by
  have h2 : 2 ≤ ([3, 3] : List ℝ).length := by norm_num
  have hv : varValue ([3, 3] : List ℝ) true = 0 := by
    norm_num [varValue, _squared_difference, meanValue]
  simp only [correlation_r, ensure_ok h2, ok_bind, cov_self, var_eval h2,
    stdev_eval h2, pure_eq_ok, hv, Real.sqrt_zero, mul_zero]
  rw [if_pos trivial]

/-- Claim C8 (amended): `pooled_var`, `z_interval_equal_var` and
`t_interval_equal_var` validate only that each input individually has length
≥ 2 and never compare the two lengths, so on a pair of unequal lengths ≥ 2
they compute and return a result instead of failing. -/
theorem claim_C8 (x y : List ℝ) (q : ℝ → ℝ) (tq : ℝ → Nat → ℝ) (c : ℝ)
    (hx : 2 ≤ x.length) (hy : 2 ≤ y.length) (hne : x.length ≠ y.length) :
    pooled_var x y = .ok ((((x.length : ℝ) - 1) * varValue x true
        + ((y.length : ℝ) - 1) * varValue y true)
      / ((x.length : ℝ) + (y.length : ℝ) - 2))
    ∧ (∃ p, z_interval_equal_var q x y c = .ok p)
    ∧ (∃ p, t_interval_equal_var tq x y c = .ok p) := by
  refine ⟨?_, ?_, ?_⟩
  · simp [pooled_var, validate_ge hx, validate_ge hy, var_eval hx, var_eval hy,
      ok_bind, pure_eq_ok]
  · simp only [z_interval_equal_var, validate_ge hx, validate_ge hy,
      mean_eval hx, mean_eval hy, var_eval hx, var_eval hy, ok_bind, pure_eq_ok]
    exact ⟨_, rfl⟩
  · simp only [t_interval_equal_var, pooled_var, validate_ge hx, validate_ge hy,
      mean_eval hx, mean_eval hy, var_eval hx, var_eval hy, ok_bind, pure_eq_ok]
    exact ⟨_, rfl⟩

theorem claim_C8_wit :
    pooled_var ([1, 2] : List ℝ) [1, 2, 3]
      = .ok ((((([1, 2] : List ℝ).length : ℝ) - 1) * varValue ([1, 2] : List ℝ) true
          + ((([1, 2, 3] : List ℝ).length : ℝ) - 1) * varValue ([1, 2, 3] : List ℝ) true)
        / ((([1, 2] : List ℝ).length : ℝ) + (([1, 2, 3] : List ℝ).length : ℝ) - 2))
    ∧ (∃ p, z_interval_equal_var (fun _ => 0) ([1, 2] : List ℝ) [1, 2, 3] 0.95 = .ok p)
    ∧ (∃ p, t_interval_equal_var (fun _ _ => 0) ([1, 2] : List ℝ) [1, 2, 3] 0.95
        = .ok p) :=
  claim_C8 [1, 2] [1, 2, 3] (fun _ => 0) (fun _ _ => 0) 0.95
    (by norm_num) (by norm_num) (by norm_num)

/-- `pooled_var`, `z_interval_equal_var` and `t_interval_equal_var` succeed on
the unequal-length pair `[1,2]` / `[1,2,3]` (both lengths ≥ 2), returning
concrete values instead of failing, refuting claim C8 as stated. -/
theorem claim_C8_cex :
    pooled_var ([1, 2] : List ℝ) [1, 2, 3] = .ok (5 / 6)
    ∧ z_interval_equal_var (fun _ => 0) ([1, 2] : List ℝ) [1, 2, 3] 0.95
        = .ok (-(1 / 2), -(1 / 2))
    ∧ t_interval_equal_var (fun _ _ => 0) ([1, 2] : List ℝ) [1, 2, 3] 0.95
        = .ok (-(1 / 2), -(1 / 2)) := by
  have hx : 2 ≤ ([1, 2] : List ℝ).length := by norm_num
  have hy : 2 ≤ ([1, 2, 3] : List ℝ).length := by norm_num
  refine ⟨?_, ?_, ?_⟩
  · simp only [pooled_var, validate_ge hx, validate_ge hy, var_eval hx,
      var_eval hy, ok_bind, pure_eq_ok, Except.ok.injEq]
    norm_num [varValue, _squared_difference, meanValue]
  · simp only [z_interval_equal_var, validate_ge hx, validate_ge hy,
      mean_eval hx, mean_eval hy, var_eval hx, var_eval hy, ok_bind, pure_eq_ok,
      zero_mul, Except.ok.injEq]
    norm_num [meanValue, Prod.ext_iff]
  · simp only [t_interval_equal_var, pooled_var, validate_ge hx, validate_ge hy,
      mean_eval hx, mean_eval hy, var_eval hx, var_eval hy, ok_bind, pure_eq_ok,
      zero_mul, Except.ok.injEq]
    norm_num [meanValue, Prod.ext_iff]

/-- Claim C9: with stored parameters `(w, b)`, `predict` classifies the `i`-th
example as class 1 exactly when `sigmoid(w·x + b) > 0.5` and as class 0
otherwise. -/
theorem claim_C9 (w : List ℝ) (b : ℝ) (X : List (List ℝ)) (i : Nat)
    (h : i < X.length) :
    ((predict w b X).getD i 0 = 1 ↔ _sigmoid (dot w (X.getD i []) + b) > 0.5)
    ∧ ((predict w b X).getD i 0 = 0
        ↔ ¬ _sigmoid (dot w (X.getD i []) + b) > 0.5) := by
  have hlen : i < (predict w b X).length := by simpa [predict] using h
  have hp : (predict w b X).getD i 0 = (predict w b X)[i] :=
    List.getD_eq_getElem _ _ hlen
  have hX : X.getD i [] = X[i] := List.getD_eq_getElem _ _ h
  rw [hp, hX]
  simp only [predict, List.getElem_map]
  by_cases hσ : _sigmoid (dot w (X[i]) + b) > 0.5
  · simp [hσ]
  · simp [hσ]

theorem claim_C9_wit :
    ((predict [1] 0 [[1]]).getD 0 0 = 1
      ↔ _sigmoid (dot [1] (([[1]] : List (List ℝ)).getD 0 []) + 0) > 0.5)
    ∧ ((predict [1] 0 [[1]]).getD 0 0 = 0
      ↔ ¬ _sigmoid (dot [1] (([[1]] : List (List ℝ)).getD 0 []) + 0) > 0.5) :=
  claim_C9 [1] 0 [[1]] 0 (by norm_num)

/-- Claim C10: the divisions of `cv`, `zscore`, `tscore` and `correlation_r`
are unguarded: inputs of length ≥ 2 exist (a zero-mean sample for `cv`,
constant samples for the others) on which the operation raises a
division-by-zero error rather than returning a result or one of the two
documented taxonomy errors. -/
theorem claim_C10 :
    cv ([1, -1] : List ℝ) true = .error .divisionByZero
    ∧ zscore ([5, 5] : List ℝ) = .error .divisionByZero
    ∧ tscore ([5, 5] : List ℝ) = .error .divisionByZero
    ∧ correlation_r ([2, 2] : List ℝ) [1, 2] true = .error .divisionByZero := by
  refine ⟨?_, ?_, ?_, ?_⟩
  · have h2 : 2 ≤ ([1, -1] : List ℝ).length := by norm_num
    have hm : meanValue ([1, -1] : List ℝ) = 0 := by norm_num [meanValue]
    simp only [cv, validate_ge h2, ok_bind, mean_eval h2, stdev_eval h2,
      pure_eq_ok, hm]
    rw [if_pos trivial]
  · have h2 : 2 ≤ ([5, 5] : List ℝ).length := by norm_num
    have hv : varValue ([5, 5] : List ℝ) false = 0 := by
      norm_num [varValue, _squared_difference, meanValue]
    simp only [zscore, validate_ge h2, ok_bind, mean_eval h2, stdev_eval h2,
      pure_eq_ok, hv, Real.sqrt_zero]
    rw [if_pos trivial]
  · have h2 : 2 ≤ ([5, 5] : List ℝ).length := by norm_num
    have hv : varValue ([5, 5] : List ℝ) true = 0 := by
      norm_num [varValue, _squared_difference, meanValue]
    simp only [tscore, validate_ge h2, ok_bind, mean_eval h2, stdev_eval h2,
      pure_eq_ok, hv, Real.sqrt_zero]
    rw [if_pos trivial]
  · have h2 : 2 ≤ ([2, 2] : List ℝ).length := by norm_num
    have hy2 : 2 ≤ ([1, 2] : List ℝ).length := by norm_num
    have he : _ensure_equal_len ([1, 2] : List ℝ).length ([2, 2] : List ℝ).length
        = .ok () := by rfl
    have hv : varValue ([2, 2] : List ℝ) true = 0 := by
      norm_num [varValue, _squared_difference, meanValue]
    simp only [correlation_r, cov, he, ok_bind, mean_eval h2, mean_eval hy2,
      stdev_eval h2, stdev_eval hy2, pure_eq_ok, hv, Real.sqrt_zero, zero_mul]
    rw [if_pos trivial]

end Staty
